import Mathlib

/-!
Verification development for the reconciliation core of an AWS spot
provisioner (src/provisioner/aws-manager.js).  The data model and the
operations below are shallow embeddings of the JavaScript source: dates are
epoch milliseconds (Int), prices are the result of parseFloat (modelled as
rationals), JavaScript property access that can yield undefined is modelled
with Option, and a statement that throws is modelled with Except.
-/

namespace Aws

/-- Bound on how many reconciliation sweeps a pending-resolution entry may
survive (aws-manager.js line 11). -/
def MAX_ITERATIONS_FOR_STATE_RESOLUTION : Nat := 20

/-- The Status sub-object of a spot request (only the Code field is read by
the functions embedded here). -/
structure SrStatus where
  Code : String
deriving DecidableEq, Repr

/-- The Placement sub-object of a launch specification. -/
structure SrPlacement where
  AvailabilityZone : String
deriving DecidableEq, Repr

/-- The LaunchSpecification sub-object of a spot request.  Note: a spot
request carries its instance type only here, not at top level (see
filters.spotReq in the source, and every access site except capacityForType). -/
structure LaunchSpec where
  InstanceType : String
  Placement : SrPlacement
deriving DecidableEq, Repr

/-- A spot request as held in classified state; _classify stamps Region and
WorkerType onto the raw AWS object.  CreateTime is epoch ms; SpotPrice is the
value parseFloat would return for the SpotPrice string. -/
structure SpotRequest where
  SpotInstanceRequestId : String
  State : String
  Status : SrStatus
  LaunchSpecification : LaunchSpec
  CreateTime : Int
  SpotPrice : ℚ
  Region : String
  WorkerType : String
deriving DecidableEq, Repr

/-- The State sub-object of an instance (only Name is read here). -/
structure InstState where
  Name : String
deriving DecidableEq, Repr

/-- The StateReason sub-object of a terminated instance. -/
structure StateReason where
  Code : String
  Message : String
deriving DecidableEq, Repr

/-- An EC2 instance as held in classified state.  SpotInstanceRequestId and
StateReason may be absent on the AWS object, hence Option. -/
structure Ec2Instance where
  InstanceId : String
  InstanceType : String
  State : InstState
  SpotInstanceRequestId : Option String
  StateReason : Option StateReason
  Region : String
  WorkerType : String
deriving DecidableEq, Repr

/-- The classified API state: two flat lists (_classify). -/
structure ApiState where
  instances : List Ec2Instance
  requests : List SpotRequest
deriving DecidableEq, Repr

/-- A spot bid as passed to requestSpotInstance. -/
structure Bid where
  region : String
  zone : String
  type : String
  price : ℚ
deriving DecidableEq, Repr

/-- An entry of the internal (in-flight) state: the info object built in
requestSpotInstance, tracked by _trackNewSpotRequest.  submitted is epoch ms. -/
structure TrackedSr where
  workerType : String
  request : SpotRequest
  bid : Bid
  submitted : Int
deriving DecidableEq, Repr

/-- An entry of the two pending-resolution trackers
(__awaitingSpotFulfilmentStatus and __awaitingStateReason). -/
structure AwaitingEntry where
  id : String
  time : Int
  iterationCount : Nat
deriving DecidableEq, Repr

/-- The mutable state of an AwsManager that the embedded operations touch. -/
structure ManagerState where
  apiState : ApiState
  internalState : List TrackedSr
  knownKeyPairs : List String
  awaitingSpotFulfilmentStatus : List AwaitingEntry
  awaitingStateReason : List AwaitingEntry
deriving DecidableEq, Repr

/-- One instance-type row of a worker-type definition. -/
structure InstanceTypeDef where
  instanceType : String
  capacity : Nat
deriving DecidableEq, Repr

/-- The part of a worker-type definition read by the embedded functions. -/
structure WorkerTypeDef where
  workerType : String
  minCapacity : Int
  instanceTypes : List InstanceTypeDef
deriving DecidableEq, Repr

/-- Modelled from the spec: capacityOfType lives on the worker-type entity,
whose code is not under src (only its callers are).  Per the spec, each
instance type declares a capacity, and a type for which capacity_of is
unknown is counted as 1 by the callers; the source catches the throw with
capacity++.  We model the throwing lookup as an Option; the argument is an
Option String because one call site reads a property that is absent on
spot-request objects (JavaScript undefined). -/
def WorkerTypeDef.capacityOfType (w : WorkerTypeDef) (t : Option String) : Option Nat :=
  match t with
  | none => none
  | some ty => (w.instanceTypes.find? (fun d => d.instanceType == ty)).map InstanceTypeDef.capacity

/-- JavaScript truthiness of a possibly absent string: undefined and the
empty string are falsy. -/
def jsTruthyStr : Option String → Bool
  | none => false
  | some s => s != ""

/-- instancesOfType (aws-manager.js 626-633) for a single worker-type name. -/
def instancesOfType (s : ManagerState) (workerType : String) : List Ec2Instance :=
  s.apiState.instances.filter (fun i => i.WorkerType == workerType)

/-- requestsOfType (aws-manager.js 636-643) for a single worker-type name. -/
def requestsOfType (s : ManagerState) (workerType : String) : List SpotRequest :=
  s.apiState.requests.filter (fun r => r.WorkerType == workerType)

/-- One step of the instance fold of knownSpotInstanceRequestIds
(aws-manager.js 844-849): push the SpotInstanceRequestId of an instance when
it is truthy and not yet in the accumulator. -/
def sridStep (acc : List String) (osr : Option String) : List String :=
  match osr with
  | some sird => if sird != "" && !(acc.contains sird) then acc ++ [sird] else acc
  | none => acc

/-- The instance fold of knownSpotInstanceRequestIds (aws-manager.js 844-849),
written as a recursion so the fold can be reasoned about by induction. -/
def addInstanceSrIds : List Ec2Instance → List String → List String
  | [], acc => acc
  | i :: rest, acc => addInstanceSrIds rest (sridStep acc i.SpotInstanceRequestId)

/-- knownSpotInstanceRequestIds (aws-manager.js 835-852): ids of all requests
in current API state, plus any truthy SpotInstanceRequestId on an instance. -/
def knownSpotInstanceRequestIds (s : ManagerState) : List String :=
  addInstanceSrIds s.apiState.instances (s.apiState.requests.map SpotRequest.SpotInstanceRequestId)

/-- _reconcileInternalState (aws-manager.js 887-945): the filtered internal
state.  An entry is dropped when its id is already known to the API state, or
when it was submitted 15 minutes or more before now; otherwise kept. -/
def reconcileInternalState (now : Int) (s : ManagerState) : List TrackedSr :=
  let allKnownSrIds := knownSpotInstanceRequestIds s
  s.internalState.filter (fun request =>
    if allKnownSrIds.contains request.request.SpotInstanceRequestId then
      false
    else if now - request.submitted ≥ 15 * 60 * 1000 then
      false
    else
      true)

/-- The entry actually pushed by _trackNewSpotRequest (aws-manager.js 871-876):
the request is stamped with the bid region and the worker-type name. -/
def normalizeTracked (sr : TrackedSr) : TrackedSr :=
  { sr with request := { sr.request with Region := sr.bid.region, WorkerType := sr.workerType } }

/-- _trackNewSpotRequest (aws-manager.js 863-879): append the bid record to
the internal state unless its id is already known to the API state.  The
internal state itself is not consulted. -/
def trackNewSpotRequest (s : ManagerState) (sr : TrackedSr) : ManagerState :=
  if (knownSpotInstanceRequestIds s).contains sr.request.SpotInstanceRequestId then s
  else { s with internalState := s.internalState ++ [normalizeTracked sr] }

/-- deleteKeyPair (aws-manager.js 1078-1111), cache effect: after the
per-region deletions resolve, the worker name is filtered out of the
process-local known-key-pairs cache. -/
def deleteKeyPair (s : ManagerState) (workerName : String) : ManagerState :=
  { s with knownKeyPairs := s.knownKeyPairs.filter (fun knownKeyPair => knownKeyPair != workerName) }

/-- createKeyPair (aws-manager.js 1029-1071): short-circuits when the worker
name is cached, otherwise performs the per-region describeKeyPairs check plus
any needed imports and then caches the name.  The Bool records whether the
check was performed. -/
def createKeyPair (s : ManagerState) (workerName : String) : Bool × ManagerState :=
  if s.knownKeyPairs.contains workerName then
    (false, s)
  else
    (true, { s with knownKeyPairs := s.knownKeyPairs ++ [workerName] })

/- ---------------------------------------------------------------------
   Helper lemmas about the known-id fold.
--------------------------------------------------------------------- -/

theorem contains_iff_mem {l : List String} {x : String} :
    l.contains x = true ↔ x ∈ l := by
  simp [List.contains, List.elem_iff]

theorem mem_sridStep_of_mem (acc : List String) (osr : Option String)
    (x : String) (hx : x ∈ acc) : x ∈ sridStep acc osr := by
  cases osr with
  | none => exact hx
  | some sird =>
    simp only [sridStep]
    split
    · exact List.mem_append_left _ hx
    · exact hx

theorem mem_sridStep_self (acc : List String) (sird : String) (hne : sird ≠ "") :
    sird ∈ sridStep acc (some sird) := by
  simp only [sridStep]
  split
  · exact List.mem_append_right _ (List.mem_singleton.mpr rfl)
  · rename_i hc
    have hb : (sird != "") = true := by simp [bne_iff_ne, hne]
    have hcontains : acc.contains sird = true := by
      cases hcon : acc.contains sird with
      | true => rfl
      | false => exact absurd (by rw [hb, hcon]; rfl) hc
    exact contains_iff_mem.mp hcontains

theorem mem_addInstanceSrIds_of_mem_acc (l : List Ec2Instance) (acc : List String)
    (x : String) (hx : x ∈ acc) : x ∈ addInstanceSrIds l acc := by
  induction l generalizing acc with
  | nil => exact hx
  | cons i rest ih =>
    exact ih _ (mem_sridStep_of_mem acc i.SpotInstanceRequestId x hx)

theorem mem_addInstanceSrIds_of_srid (l : List Ec2Instance) (acc : List String)
    (i : Ec2Instance) (sird : String) (hi : i ∈ l)
    (hs : i.SpotInstanceRequestId = some sird) (hne : sird ≠ "") :
    sird ∈ addInstanceSrIds l acc := by
  induction l generalizing acc with
  | nil => cases hi
  | cons j rest ih =>
    rcases List.mem_cons.mp hi with hji | hi2
    · have hstep : addInstanceSrIds (j :: rest) acc
          = addInstanceSrIds rest (sridStep acc j.SpotInstanceRequestId) := rfl
      rw [hstep, ← hji, hs]
      exact mem_addInstanceSrIds_of_mem_acc rest _ sird (mem_sridStep_self acc sird hne)
    · exact ih _ hi2

theorem requestId_mem_known (s : ManagerState) (r : SpotRequest)
    (hr : r ∈ s.apiState.requests) :
    r.SpotInstanceRequestId ∈ knownSpotInstanceRequestIds s :=
  mem_addInstanceSrIds_of_mem_acc _ _ _
    (List.mem_map_of_mem SpotRequest.SpotInstanceRequestId hr)

theorem instanceSrid_mem_known (s : ManagerState) (i : Ec2Instance) (sird : String)
    (hi : i ∈ s.apiState.instances) (hs : i.SpotInstanceRequestId = some sird)
    (hne : sird ≠ "") :
    sird ∈ knownSpotInstanceRequestIds s :=
  mem_addInstanceSrIds_of_srid _ _ i sird hi hs hne

/- ---------------------------------------------------------------------
   C5: state of the in-flight tracker after _reconcileInternalState.
--------------------------------------------------------------------- -/

/-- C5: after _reconcileInternalState, every retained in-flight entry was
submitted less than 15 minutes before now, and its request id is not among
the ids known to the current API state: it is no request id, and no
instance carries it as its spot request id.  The hypothesis hids rules out
the degenerate empty-string id which the AWS API never produces (the source
skips falsy ids when collecting known ids). -/
theorem reconcileInternalState_post (s : ManagerState) (now : Int) (e : TrackedSr)
    (hids : ∀ i ∈ s.apiState.instances, i.SpotInstanceRequestId ≠ some "")
    (he : e ∈ reconcileInternalState now s) :
    now - e.submitted < 15 * 60 * 1000 ∧
    (∀ r ∈ s.apiState.requests,
      r.SpotInstanceRequestId ≠ e.request.SpotInstanceRequestId) ∧
    (∀ i ∈ s.apiState.instances,
      i.SpotInstanceRequestId ≠ some e.request.SpotInstanceRequestId) := by
  unfold reconcileInternalState at he
  rw [List.mem_filter] at he
  obtain ⟨_hmem, hp⟩ := he
  by_cases hknown :
      (knownSpotInstanceRequestIds s).contains e.request.SpotInstanceRequestId = true
  · rw [if_pos hknown] at hp
    cases hp
  · rw [if_neg hknown] at hp
    have hnotknown : e.request.SpotInstanceRequestId ∉ knownSpotInstanceRequestIds s := by
      intro hmem
      exact hknown (contains_iff_mem.mpr hmem)
    by_cases htime : now - e.submitted ≥ 15 * 60 * 1000
    · rw [if_pos htime] at hp
      cases hp
    · refine ⟨lt_of_not_ge htime, ?_, ?_⟩
      · intro r hr heq
        exact hnotknown (heq ▸ requestId_mem_known s r hr)
      · intro i hi heq
        refine hnotknown (instanceSrid_mem_known s i _ hi heq ?_)
        intro hblank
        exact hids i hi (heq.trans (by rw [hblank]))

/- ---------------------------------------------------------------------
   Concrete sample values used by witnesses and counterexamples.
--------------------------------------------------------------------- -/

def emptyApiState : ApiState := { instances := [], requests := [] }

def mkState (api : ApiState) (internal : List TrackedSr) (keys : List String) :
    ManagerState :=
  { apiState := api, internalState := internal, knownKeyPairs := keys,
    awaitingSpotFulfilmentStatus := [], awaitingStateReason := [] }

def mkRequest (id wt region ty st code : String) (ct : Int) (price : ℚ) :
    SpotRequest :=
  { SpotInstanceRequestId := id, State := st, Status := { Code := code },
    LaunchSpecification :=
      { InstanceType := ty, Placement := { AvailabilityZone := region ++ "a" } },
    CreateTime := ct, SpotPrice := price, Region := region, WorkerType := wt }

def mkBid (region ty : String) (price : ℚ) : Bid :=
  { region := region, zone := region ++ "a", type := ty, price := price }

def c5Entry : TrackedSr :=
  { workerType := "w1",
    request := mkRequest ("sir-5") ("w1") ("us-east-1") ("m3.large") ("open")
      ("pending-evaluation") 0 1,
    bid := mkBid ("us-east-1") ("m3.large") 1,
    submitted := 0 }

def c5State : ManagerState := mkState emptyApiState [c5Entry] []

/-- Witness for the C5 theorem at a concrete input: a fresh in-flight entry
unknown to an empty API state is retained and satisfies the postcondition. -/
theorem reconcileInternalState_post_witness :
    (1000 : Int) - c5Entry.submitted < 15 * 60 * 1000 ∧
    (∀ r ∈ c5State.apiState.requests,
      r.SpotInstanceRequestId ≠ c5Entry.request.SpotInstanceRequestId) ∧
    (∀ i ∈ c5State.apiState.instances,
      i.SpotInstanceRequestId ≠ some c5Entry.request.SpotInstanceRequestId) :=
  reconcileInternalState_post c5State 1000 c5Entry (by decide) (by decide)

/- ---------------------------------------------------------------------
   C9: _trackNewSpotRequest.
--------------------------------------------------------------------- -/

/-- C9: _trackNewSpotRequest appends the (region- and worker-type-stamped)
bid record exactly when its request id is not among the ids known to the
current API state, and leaves the state unchanged otherwise; since only the
API state is consulted, a second call with the same not-yet-visible request
appends a second copy. -/
theorem trackNewSpotRequest_spec (s : ManagerState) (sr : TrackedSr) :
    ((knownSpotInstanceRequestIds s).contains sr.request.SpotInstanceRequestId = true →
      trackNewSpotRequest s sr = s) ∧
    ((knownSpotInstanceRequestIds s).contains sr.request.SpotInstanceRequestId = false →
      (trackNewSpotRequest s sr).internalState
        = s.internalState ++ [normalizeTracked sr] ∧
      (trackNewSpotRequest (trackNewSpotRequest s sr) sr).internalState
        = s.internalState ++ [normalizeTracked sr, normalizeTracked sr]) := by
  constructor
  · intro h
    unfold trackNewSpotRequest
    rw [if_pos h]
  · intro h
    have hne : ¬((knownSpotInstanceRequestIds s).contains
        sr.request.SpotInstanceRequestId = true) := by
      rw [h]; exact Bool.false_ne_true
    have h1 : trackNewSpotRequest s sr
        = { s with internalState := s.internalState ++ [normalizeTracked sr] } := by
      unfold trackNewSpotRequest
      rw [if_neg hne]
    refine ⟨by rw [h1], ?_⟩
    rw [h1]
    show (trackNewSpotRequest
        { s with internalState := s.internalState ++ [normalizeTracked sr] } sr).internalState = _
    unfold trackNewSpotRequest
    have hne2 : ¬((knownSpotInstanceRequestIds
        { s with internalState := s.internalState ++ [normalizeTracked sr] }).contains
        sr.request.SpotInstanceRequestId = true) := hne
    rw [if_neg hne2]
    simp

def c9Sr : TrackedSr :=
  { workerType := "w9",
    request := mkRequest ("sir-9") ("") ("") ("m3.large") ("open")
      ("pending-evaluation") 0 1,
    bid := mkBid ("us-west-2") ("m3.large") 1,
    submitted := 0 }

def c9State : ManagerState := mkState emptyApiState [] []

/-- Witness for the C9 theorem: with an empty API state the request id is
unknown, one call appends one entry and a second call appends another. -/
theorem trackNewSpotRequest_spec_witness :
    (trackNewSpotRequest c9State c9Sr).internalState
      = c9State.internalState ++ [normalizeTracked c9Sr] ∧
    (trackNewSpotRequest (trackNewSpotRequest c9State c9Sr) c9Sr).internalState
      = c9State.internalState ++ [normalizeTracked c9Sr, normalizeTracked c9Sr] :=
  (trackNewSpotRequest_spec c9State c9Sr).2 (by decide)

/- ---------------------------------------------------------------------
   C10: deleteKeyPair and the known-key-pairs cache.
--------------------------------------------------------------------- -/

/-- C10: after deleteKeyPair, the worker name is gone from the process-local
known-key-pairs cache, every other cached name survives, and a subsequent
createKeyPair for that name performs the per-region check again instead of
short-circuiting on the cache. -/
theorem deleteKeyPair_cache (s : ManagerState) (workerName : String) :
    workerName ∉ (deleteKeyPair s workerName).knownKeyPairs ∧
    (∀ n ∈ s.knownKeyPairs, n ≠ workerName →
      n ∈ (deleteKeyPair s workerName).knownKeyPairs) ∧
    (createKeyPair (deleteKeyPair s workerName) workerName).1 = true := by
  have hno : workerName ∉ (deleteKeyPair s workerName).knownKeyPairs := by
    intro hmem
    unfold deleteKeyPair at hmem
    rw [List.mem_filter] at hmem
    have hfalse := hmem.2
    simp at hfalse
  refine ⟨hno, ?_, ?_⟩
  · intro n hn hne
    unfold deleteKeyPair
    rw [List.mem_filter]
    exact ⟨hn, by simp [bne_iff_ne, hne]⟩
  · unfold createKeyPair
    rw [if_neg (fun hc => hno (contains_iff_mem.mp hc))]

def c10State : ManagerState := mkState emptyApiState [] ["wa", "wb"]

/- ---------------------------------------------------------------------
   C1: capacityForType.
--------------------------------------------------------------------- -/

/-- capacityForType (aws-manager.js 706-747).  Instances of the worker type
contribute capacityOfType of their instance type when their state is in
states (the catch counts 1).  Requests of the worker type and ALL internal
entries, regardless of worker type, contribute when states contains spotReq;
both of those branches read a top-level InstanceType property, which
spot-request objects do not carry (the type lives under LaunchSpecification,
see filters.spotReq and every other access site), so capacityOfType throws
and the catch counts 1 for each of them. -/
def capacityForType (s : ManagerState) (w : WorkerTypeDef) (states : List String) : Nat :=
  let instances := instancesOfType s w.workerType
  let requests := requestsOfType s w.workerType
  let cap1 := instances.foldl
    (fun capacity i =>
      if states.contains i.State.Name then
        capacity + ((w.capacityOfType (some i.InstanceType)).getD 1)
      else capacity) 0
  let cap2 := requests.foldl
    (fun capacity _request =>
      if states.contains ("spotReq") then
        capacity + ((w.capacityOfType none).getD 1)
      else capacity) cap1
  s.internalState.foldl
    (fun capacity _sr =>
      if states.contains ("spotReq") then
        capacity + ((w.capacityOfType none).getD 1)
      else capacity) cap2

/-- The C1 claim in its own words, for comparison: instances of the worker
type in a state of S, plus, when S contains spotReq, the open requests of
the worker type, plus the in-flight entries belonging to the worker type,
each contributing capacityOfType of its instance type, 1 when unknown. -/
def capacityForTypeClaim (s : ManagerState) (w : WorkerTypeDef) (states : List String) : Nat :=
  ((instancesOfType s w.workerType).filter
      (fun i => states.contains i.State.Name)).foldl
    (fun capacity i => capacity + ((w.capacityOfType (some i.InstanceType)).getD 1)) 0
  + (if states.contains ("spotReq") then
      (requestsOfType s w.workerType).foldl
        (fun capacity r =>
          capacity + ((w.capacityOfType (some r.LaunchSpecification.InstanceType)).getD 1)) 0
     else 0)
  + (s.internalState.filter (fun t => t.request.WorkerType == w.workerType)).foldl
      (fun capacity t =>
        capacity + ((w.capacityOfType (some t.request.LaunchSpecification.InstanceType)).getD 1)) 0

def c1Worker : WorkerTypeDef :=
  { workerType := "w1", minCapacity := 0,
    instanceTypes := [{ instanceType := "m3.large", capacity := 2 }] }

/-- An in-flight entry belonging to a different worker type. -/
def c1Foreign : TrackedSr :=
  { workerType := "other",
    request := mkRequest ("sir-other") ("other") ("us-east-1") ("m3.large") ("open")
      ("pending-evaluation") 0 1,
    bid := mkBid ("us-east-1") ("m3.large") 1,
    submitted := 0 }

/-- A state holding only the foreign in-flight entry. -/
def c1StateA : ManagerState := mkState emptyApiState [c1Foreign] []

/-- A state holding one open request of worker type w1 whose instance type
m3.large has declared capacity 2. -/
def c1StateB : ManagerState :=
  mkState
    { instances := [],
      requests := [mkRequest ("sir-b") ("w1") ("us-east-1") ("m3.large") ("open")
        ("pending-evaluation") 0 1] }
    [] []

/-- C1 fails on the code in two ways.  First, the internal-state loop does
not filter by worker type: with no resources of w1 at all and one in-flight
entry of worker type other, the code still counts capacity 1 for w1 where
the claim counts 0.  Second, the request branch reads the nonexistent
top-level InstanceType, so an open w1 request of a type with declared
capacity 2 is counted as 1 where the claim counts 2. -/
theorem capacityForType_divergence :
    capacityForType c1StateA c1Worker [("spotReq")] = 1 ∧
    capacityForTypeClaim c1StateA c1Worker [("spotReq")] = 0 ∧
    capacityForType c1StateB c1Worker [("spotReq")] = 1 ∧
    capacityForTypeClaim c1StateB c1Worker [("spotReq")] = 2 := by
  refine ⟨rfl, rfl, rfl, rfl⟩

/- ---------------------------------------------------------------------
   C3: _filterSpotRequests.
--------------------------------------------------------------------- -/

/-- The bad-status list of _filterSpotRequests (aws-manager.js 225-234).
The last element carries a trailing space, faithful to the source. -/
def stalledStatesList : List String :=
  ["capacity-not-available", "capacity-oversubscribed", "price-too-low",
   "not-scheduled-yet", "launch-group-constraint", "az-group-constraint",
   "placement-group-constraint", "constraint-not-fulfillable "]

/-- The two buckets produced by _filterSpotRequests for one region. -/
structure FilterBuckets where
  good : List SpotRequest
  stalled : List SpotRequest
deriving DecidableEq, Repr

/-- The per-region body of _filterSpotRequests (aws-manager.js 218-268).
For each open request: when CreateTime plus 20 minutes is before now, push
it to stalled; then, independently, push it to stalled when its status code
is in the bad-status list, and to good otherwise.  The price-too-low floor
telemetry emitted in the same loop has no effect on the buckets and is not
modelled here. -/
def filterSpotRequestsRegion (now : Int) (srs : List SpotRequest) : FilterBuckets :=
  srs.foldl
    (fun data sr =>
      let killWhen := sr.CreateTime + 20 * 60 * 1000
      let data :=
        if killWhen < now then { data with stalled := data.stalled ++ [sr] } else data
      if stalledStatesList.contains sr.Status.Code then
        { data with stalled := data.stalled ++ [sr] }
      else
        { data with good := data.good ++ [sr] })
    { good := [], stalled := [] }

/-- _filterSpotRequests over the per-region response map. -/
def filterSpotRequests (now : Int) (spotReqs : List (String × List SpotRequest)) :
    List (String × FilterBuckets) :=
  spotReqs.map (fun p => (p.1, filterSpotRequestsRegion now p.2))

/-- An open request created at time 0 with a status code outside the
bad-status list. -/
def c3Request : SpotRequest :=
  mkRequest ("sir-3") ("w1") ("us-east-1") ("m3.large") ("open")
    ("pending-evaluation") 0 1

/-- C3 fails on the code: 25 minutes after creation, a still-open request
with the good status pending-evaluation is pushed to stalled by the age
check AND to good by the status check, so it sits in both buckets, while
the claim requires it to be in exactly one (stalled).  It will be both
cancelled and treated as part of the live snapshot. -/
theorem filterSpotRequests_double_bucket :
    (filterSpotRequestsRegion (25 * 60 * 1000) [c3Request]).good = [c3Request] ∧
    (filterSpotRequestsRegion (25 * 60 * 1000) [c3Request]).stalled = [c3Request] := by
  refine ⟨rfl, rfl⟩

/- ---------------------------------------------------------------------
   C4 and C6: the pending-resolution sweeps of _reconcileStateDifferences.
--------------------------------------------------------------------- -/

/-- JavaScript strict equality between a string and an object is always
false.  The source (aws-manager.js 401) compares
requestMightHave.SpotInstanceRequestId, a string, against requestAwaiting,
the whole awaiting-entry object, instead of requestAwaiting.id. -/
def jsEqStringEntry (_ : String) (_ : AwaitingEntry) : Bool := false

/-- The dead requests that would resolve an awaiting-fulfilment entry: those
passing the identity test of line 401 and being active and fulfilled. -/
def spotFulfilmentMatches (deadState : ApiState) (requestAwaiting : AwaitingEntry) :
    List SpotRequest :=
  deadState.requests.filter
    (fun requestMightHave =>
      jsEqStringEntry requestMightHave.SpotInstanceRequestId requestAwaiting
      && requestMightHave.State == ("active")
      && requestMightHave.Status.Code == ("fulfilled"))

/-- JS truthiness of instance.StateReason && instance.StateReason.Code. -/
def jsTruthyStateReason : Option StateReason → Bool
  | none => false
  | some r => r.Code != ""

/-- The dead instances that resolve an awaiting-state-reason entry
(aws-manager.js 499-509): matched on InstanceId, with a truthy StateReason. -/
def stateReasonMatches (deadState : ApiState) (instanceAwaiting : AwaitingEntry) :
    List Ec2Instance :=
  deadState.instances.filter
    (fun instanceMightHave =>
      instanceMightHave.InstanceId == instanceAwaiting.id
      && jsTruthyStateReason instanceMightHave.StateReason)

/-- The iterationCount++ mutation applied to a tracker entry. -/
def bumpEntry (e : AwaitingEntry) : AwaitingEntry :=
  { e with iterationCount := e.iterationCount + 1 }

/-- The retained part of one pending-resolution sweep: an entry survives
when nothing resolved it and its pre-increment iterationCount does not
exceed MAX_ITERATIONS_FOR_STATE_RESOLUTION (the source tests
iterationCount++ with a strict greater-than); the JS filter callback
mutates each entry with iterationCount++, so retained entries come back
bumped. -/
def budgetSweep (resolved : AwaitingEntry → Bool) (l : List AwaitingEntry) :
    List AwaitingEntry :=
  l.filterMap
    (fun e =>
      if !(resolved e)
          && decide (e.iterationCount ≤ MAX_ITERATIONS_FOR_STATE_RESOLUTION) then
        some (bumpEntry e)
      else none)

/-- The sweep of __awaitingSpotFulfilmentStatus (aws-manager.js 397-415):
the retained entries and the request ids plotted as fulfilled. -/
def sweepAwaitingSpotFulfilment (deadState : ApiState) (l : List AwaitingEntry) :
    List AwaitingEntry × List String :=
  (budgetSweep (fun e => !(spotFulfilmentMatches deadState e).isEmpty) l,
   (l.map (fun e =>
      (spotFulfilmentMatches deadState e).map SpotRequest.SpotInstanceRequestId)).flatten)

/-- The sweep of __awaitingStateReason (aws-manager.js 497-518): the
retained entries and the instance ids plotted as terminated. -/
def sweepAwaitingStateReason (deadState : ApiState) (l : List AwaitingEntry) :
    List AwaitingEntry × List String :=
  (budgetSweep (fun e => !(stateReasonMatches deadState e).isEmpty) l,
   (l.map (fun e =>
      (stateReasonMatches deadState e).map Ec2Instance.InstanceId)).flatten)

/-- The retained-entries part of the request sweep, as a step function. -/
def sweepFulfilmentStep (deadState : ApiState) (l : List AwaitingEntry) :
    List AwaitingEntry :=
  (sweepAwaitingSpotFulfilment deadState l).1

/-- The retained-entries part of the instance sweep, as a step function. -/
def sweepReasonStep (deadState : ApiState) (l : List AwaitingEntry) :
    List AwaitingEntry :=
  (sweepAwaitingStateReason deadState l).1

def c4Entry : AwaitingEntry := { id := "sir-4", time := 0, iterationCount := 0 }

/-- A dead state holding exactly the request the C4 entry is waiting for,
already active and fulfilled. -/
def c4Dead : ApiState :=
  { instances := [],
    requests := [mkRequest ("sir-4") ("w1") ("us-east-1") ("m3.large") ("active")
      ("fulfilled") 0 1] }

/-- C4 fails on the code: the dead state contains the request with id equal
to the entry id, active and fulfilled, yet the sweep keeps the entry (only
bumping its counter) and emits nothing, because line 401 compares the
request id against the whole awaiting-entry object and a string is never
strictly equal to an object.  The claim (and the spec contract) requires a
request_fulfilled emission and removal of the entry. -/
theorem awaitingSpotFulfilment_never_resolves :
    sweepAwaitingSpotFulfilment c4Dead [c4Entry]
      = ([{ id := "sir-4", time := 0, iterationCount := 1 }], []) := by
  refine rfl

/-- C6 counterexample: an unresolved entry inserted with iterationCount 0 is
still retained after 21 sweeps, contradicting a bound of at most 20 sweeps;
the post-increment test iterationCount++ > 20 only drops it on the 22nd. -/
theorem pendingResolution_survives_21_sweeps :
    (sweepFulfilmentStep emptyApiState)^[21]
        [{ id := "sir-6", time := 0, iterationCount := 0 }]
      = [{ id := "sir-6", time := 0, iterationCount := 21 }] := by
  decide

theorem budgetSweep_count_le (resolved : AwaitingEntry → Bool)
    (l : List AwaitingEntry) (e : AwaitingEntry) (he : e ∈ budgetSweep resolved l) :
    e.iterationCount ≤ MAX_ITERATIONS_FOR_STATE_RESOLUTION + 1 := by
  unfold budgetSweep at he
  rw [List.mem_filterMap] at he
  obtain ⟨a, _ha, hfa⟩ := he
  split at hfa
  · rename_i hcond
    have h2 : a.iterationCount ≤ MAX_ITERATIONS_FOR_STATE_RESOLUTION :=
      of_decide_eq_true ((Bool.and_eq_true _ _).mp hcond).2
    have hbump : bumpEntry a = e := Option.some.inj hfa
    rw [← hbump]
    exact Nat.add_le_add_right h2 1
  · cases hfa

theorem budgetSweep_count_ge (resolved : AwaitingEntry → Bool)
    (l : List AwaitingEntry) (k : Nat) (hl : ∀ e ∈ l, k ≤ e.iterationCount)
    (e : AwaitingEntry) (he : e ∈ budgetSweep resolved l) :
    k + 1 ≤ e.iterationCount := by
  unfold budgetSweep at he
  rw [List.mem_filterMap] at he
  obtain ⟨a, ha, hfa⟩ := he
  split at hfa
  · have hbump : bumpEntry a = e := Option.some.inj hfa
    rw [← hbump]
    exact Nat.add_le_add_right (hl a ha) 1
  · cases hfa

theorem budgetSweep_iterate_ge (resolved : AwaitingEntry → Bool) (n : Nat) :
    ∀ l : List AwaitingEntry, ∀ e ∈ (budgetSweep resolved)^[n] l,
      n ≤ e.iterationCount := by
  induction n with
  | zero => intro l e _; exact Nat.zero_le _
  | succ m ih =>
    intro l e he
    rw [Function.iterate_succ_apply'] at he
    exact budgetSweep_count_ge resolved _ m (ih l) e he

theorem budgetSweep_iterate_22_nil (resolved : AwaitingEntry → Bool)
    (l : List AwaitingEntry) : (budgetSweep resolved)^[22] l = [] := by
  rw [List.eq_nil_iff_forall_not_mem]
  intro e he
  have h22 : 22 ≤ e.iterationCount := budgetSweep_iterate_ge resolved 22 l e he
  have hle : e.iterationCount ≤ MAX_ITERATIONS_FOR_STATE_RESOLUTION + 1 := by
    rw [Function.iterate_succ_apply'] at he
    exact budgetSweep_count_le resolved _ e he
  rw [MAX_ITERATIONS_FOR_STATE_RESOLUTION] at hle
  omega

/-- C6 amended: with the post-increment test iterationCount++ > 20, an entry
of either pending-resolution tracker survives at most 21 sweeps (after any
sweep every retained entry has iterationCount at most 21), and after 22
sweeps with no insertions both trackers are empty regardless of their
starting contents and of the dead state. -/
theorem pendingResolution_budget (d : ApiState) (l : List AwaitingEntry) :
    (∀ e ∈ (sweepAwaitingSpotFulfilment d l).1,
      e.iterationCount ≤ MAX_ITERATIONS_FOR_STATE_RESOLUTION + 1) ∧
    (∀ e ∈ (sweepAwaitingStateReason d l).1,
      e.iterationCount ≤ MAX_ITERATIONS_FOR_STATE_RESOLUTION + 1) ∧
    (sweepFulfilmentStep d)^[22] l = [] ∧
    (sweepReasonStep d)^[22] l = [] := by
  have hf : sweepFulfilmentStep d
      = budgetSweep (fun e => !(spotFulfilmentMatches d e).isEmpty) :=
    funext (fun _ => rfl)
  have hr : sweepReasonStep d
      = budgetSweep (fun e => !(stateReasonMatches d e).isEmpty) :=
    funext (fun _ => rfl)
  refine ⟨?_, ?_, ?_, ?_⟩
  · intro e he
    exact budgetSweep_count_le _ l e he
  · intro e he
    exact budgetSweep_count_le _ l e he
  · rw [hf]
    exact budgetSweep_iterate_22_nil _ l
  · rw [hr]
    exact budgetSweep_iterate_22_nil _ l

/-- Witness for the C6 amended theorem at a concrete input. -/
theorem pendingResolution_budget_witness :
    (sweepFulfilmentStep emptyApiState)^[22]
        [{ id := "sir-6w", time := 0, iterationCount := 0 }] = [] ∧
    (sweepReasonStep emptyApiState)^[22]
        [{ id := "sir-6w", time := 0, iterationCount := 0 }] = [] :=
  ⟨(pendingResolution_budget emptyApiState
      [{ id := "sir-6w", time := 0, iterationCount := 0 }]).2.2.1,
   (pendingResolution_budget emptyApiState
      [{ id := "sir-6w", time := 0, iterationCount := 0 }]).2.2.2⟩

/- ---------------------------------------------------------------------
   C7: plotInstanceDeath and the spot price floor.
--------------------------------------------------------------------- -/

/-- JS truthiness of the price variable in plotInstanceDeath: undefined and
zero are falsy (a NaN result of parseFloat is likewise falsy and would
behave as a zero price here). -/
def jsTruthyPrice : Option ℚ → Bool
  | none => false
  | some p => decide (p ≠ 0)

/-- The events emitted by the paths embedded here. -/
inductive Event where
  | instanceTerminated (id : String) : Event
  | spotPriceFloor (price : ℚ) (reason : String) : Event
deriving DecidableEq, Repr

/-- One iteration of the price search in plotInstanceDeath (aws-manager.js
452-462): take the SpotPrice of a request whose id matches the instance, but
only while the price found so far is falsy. -/
def priceScanStep (inst : Ec2Instance) (price : Option ℚ) (request : SpotRequest) :
    Option ℚ :=
  if !(jsTruthyPrice price)
      && (inst.SpotInstanceRequestId == some request.SpotInstanceRequestId) then
    some request.SpotPrice
  else price

/-- The forEach of the price search over one request list. -/
def priceScan (inst : Ec2Instance) : List SpotRequest → Option ℚ → Option ℚ
  | [], p0 => p0
  | q :: rest, p0 => priceScan inst rest (priceScanStep inst p0 q)

/-- The price found by plotInstanceDeath: dead-state requests are scanned
first, then current-state requests. -/
def foundFloorPrice (deadState apiState : ApiState) (inst : Ec2Instance) :
    Option ℚ :=
  priceScan inst apiState.requests (priceScan inst deadState.requests none)

/-- plotInstanceDeath (aws-manager.js 429-477): always emits
instance_terminated; when the state reason code is
Server.SpotInstanceTermination and the found price is truthy, also emits
spot_price_floor with that price.  The truthiness guard if (price) skips
both an absent and a zero price.  Telemetry fields other than the price are
not modelled. -/
def plotInstanceDeath (deadState apiState : ApiState) (inst : Ec2Instance) :
    List Event :=
  if inst.StateReason.map StateReason.Code == some ("Server.SpotInstanceTermination") then
    match foundFloorPrice deadState apiState inst with
    | some price =>
      if price = 0 then [Event.instanceTerminated inst.InstanceId]
      else [Event.instanceTerminated inst.InstanceId]
        ++ [Event.spotPriceFloor price ("instance-spot-killed")]
    | none => [Event.instanceTerminated inst.InstanceId]
  else [Event.instanceTerminated inst.InstanceId]

/-- The amended claim in its own words: the first request, searching the
dead-state requests and then the current-state requests, whose id matches
the terminated instance and whose bid price is nonzero. -/
def firstMatchingNonzeroBid (deadState apiState : ApiState) (inst : Ec2Instance) :
    Option ℚ :=
  match deadState.requests.find?
      (fun r => inst.SpotInstanceRequestId == some r.SpotInstanceRequestId
        && decide (r.SpotPrice ≠ 0)) with
  | some r => some r.SpotPrice
  | none =>
    (apiState.requests.find?
      (fun r => inst.SpotInstanceRequestId == some r.SpotInstanceRequestId
        && decide (r.SpotPrice ≠ 0))).map SpotRequest.SpotPrice

theorem priceScanStep_truthy (inst : Ec2Instance) (q : SpotRequest)
    (p0 : Option ℚ) (h : jsTruthyPrice p0 = true) :
    priceScanStep inst p0 q = p0 := by
  simp [priceScanStep, h]

theorem priceScanStep_found (inst : Ec2Instance) (q : SpotRequest)
    (p0 : Option ℚ) (h0 : jsTruthyPrice p0 = false)
    (hm : (inst.SpotInstanceRequestId == some q.SpotInstanceRequestId) = true) :
    priceScanStep inst p0 q = some q.SpotPrice := by
  simp [priceScanStep, h0, hm]

theorem priceScanStep_nomatch (inst : Ec2Instance) (q : SpotRequest)
    (p0 : Option ℚ)
    (hm : (inst.SpotInstanceRequestId == some q.SpotInstanceRequestId) = false) :
    priceScanStep inst p0 q = p0 := by
  simp [priceScanStep, hm]

theorem priceScan_truthy (inst : Ec2Instance) (reqs : List SpotRequest)
    (p0 : Option ℚ) (h : jsTruthyPrice p0 = true) :
    priceScan inst reqs p0 = p0 := by
  induction reqs with
  | nil => rfl
  | cons q rest ih =>
    show priceScan inst rest (priceScanStep inst p0 q) = p0
    rw [priceScanStep_truthy inst q p0 h]
    exact ih

theorem priceScan_find_some (inst : Ec2Instance) (reqs : List SpotRequest)
    (p0 : Option ℚ) (h0 : jsTruthyPrice p0 = false) (r : SpotRequest)
    (hfind : reqs.find?
      (fun q => inst.SpotInstanceRequestId == some q.SpotInstanceRequestId
        && decide (q.SpotPrice ≠ 0)) = some r) :
    priceScan inst reqs p0 = some r.SpotPrice := by
  induction reqs generalizing p0 with
  | nil => cases hfind
  | cons q rest ih =>
    show priceScan inst rest (priceScanStep inst p0 q) = some r.SpotPrice
    cases hcq : (inst.SpotInstanceRequestId == some q.SpotInstanceRequestId
        && decide (q.SpotPrice ≠ 0)) with
    | true =>
      have hcons : List.find?
          (fun q2 => inst.SpotInstanceRequestId == some q2.SpotInstanceRequestId
            && decide (q2.SpotPrice ≠ 0)) (q :: rest) = some q :=
        List.find?_cons_of_pos rest hcq
      rw [hcons] at hfind
      have hqr : q = r := Option.some.inj hfind
      have hm : (inst.SpotInstanceRequestId == some q.SpotInstanceRequestId) = true :=
        ((Bool.and_eq_true _ _).mp hcq).1
      have hz : q.SpotPrice ≠ 0 :=
        of_decide_eq_true ((Bool.and_eq_true _ _).mp hcq).2
      rw [priceScanStep_found inst q p0 h0 hm]
      rw [priceScan_truthy inst rest (some q.SpotPrice) (by simp [jsTruthyPrice, hz])]
      rw [hqr]
    | false =>
      have hcons : List.find?
          (fun q2 => inst.SpotInstanceRequestId == some q2.SpotInstanceRequestId
            && decide (q2.SpotPrice ≠ 0)) (q :: rest)
          = List.find?
          (fun q2 => inst.SpotInstanceRequestId == some q2.SpotInstanceRequestId
            && decide (q2.SpotPrice ≠ 0)) rest :=
        List.find?_cons_of_neg rest (fun hh => Bool.false_ne_true (hcq ▸ hh))
      rw [hcons] at hfind
      by_cases hm : (inst.SpotInstanceRequestId == some q.SpotInstanceRequestId) = true
      · have hz : q.SpotPrice = 0 := by
          rw [hm] at hcq
          simpa using hcq
        rw [priceScanStep_found inst q p0 h0 hm]
        exact ih (some q.SpotPrice) (by simp [jsTruthyPrice, hz]) hfind
      · have hm2 : (inst.SpotInstanceRequestId == some q.SpotInstanceRequestId) = false := by
          cases hb : (inst.SpotInstanceRequestId == some q.SpotInstanceRequestId) with
          | true => exact absurd hb hm
          | false => rfl
        rw [priceScanStep_nomatch inst q p0 hm2]
        exact ih p0 h0 hfind

theorem priceScan_find_none (inst : Ec2Instance) (reqs : List SpotRequest)
    (p0 : Option ℚ) (h0 : jsTruthyPrice p0 = false)
    (hfind : reqs.find?
      (fun q => inst.SpotInstanceRequestId == some q.SpotInstanceRequestId
        && decide (q.SpotPrice ≠ 0)) = none) :
    jsTruthyPrice (priceScan inst reqs p0) = false := by
  induction reqs generalizing p0 with
  | nil => exact h0
  | cons q rest ih =>
    show jsTruthyPrice (priceScan inst rest (priceScanStep inst p0 q)) = false
    cases hcq : (inst.SpotInstanceRequestId == some q.SpotInstanceRequestId
        && decide (q.SpotPrice ≠ 0)) with
    | true =>
      have hcons : List.find?
          (fun q2 => inst.SpotInstanceRequestId == some q2.SpotInstanceRequestId
            && decide (q2.SpotPrice ≠ 0)) (q :: rest) = some q :=
        List.find?_cons_of_pos rest hcq
      rw [hcons] at hfind
      cases hfind
    | false =>
      have hcons : List.find?
          (fun q2 => inst.SpotInstanceRequestId == some q2.SpotInstanceRequestId
            && decide (q2.SpotPrice ≠ 0)) (q :: rest)
          = List.find?
          (fun q2 => inst.SpotInstanceRequestId == some q2.SpotInstanceRequestId
            && decide (q2.SpotPrice ≠ 0)) rest :=
        List.find?_cons_of_neg rest (fun hh => Bool.false_ne_true (hcq ▸ hh))
      rw [hcons] at hfind
      by_cases hm : (inst.SpotInstanceRequestId == some q.SpotInstanceRequestId) = true
      · have hz : q.SpotPrice = 0 := by
          rw [hm] at hcq
          simpa using hcq
        rw [priceScanStep_found inst q p0 h0 hm]
        exact ih (some q.SpotPrice) (by simp [jsTruthyPrice, hz]) hfind
      · have hm2 : (inst.SpotInstanceRequestId == some q.SpotInstanceRequestId) = false := by
          cases hb : (inst.SpotInstanceRequestId == some q.SpotInstanceRequestId) with
          | true => exact absurd hb hm
          | false => rfl
        rw [priceScanStep_nomatch inst q p0 hm2]
        exact ih p0 h0 hfind

theorem foundFloorPrice_of_firstMatching (d a : ApiState) (inst : Ec2Instance)
    (p : ℚ) (hp : firstMatchingNonzeroBid d a inst = some p) :
    foundFloorPrice d a inst = some p ∧ p ≠ 0 := by
  unfold firstMatchingNonzeroBid at hp
  unfold foundFloorPrice
  cases hd : d.requests.find?
      (fun r => inst.SpotInstanceRequestId == some r.SpotInstanceRequestId
        && decide (r.SpotPrice ≠ 0)) with
  | some r =>
    rw [hd] at hp
    have hpr : r.SpotPrice = p := Option.some.inj hp
    have hcond := List.find?_some hd
    have hz : r.SpotPrice ≠ 0 :=
      of_decide_eq_true ((Bool.and_eq_true _ _).mp hcond).2
    have hinner : priceScan inst d.requests none = some r.SpotPrice :=
      priceScan_find_some inst d.requests none rfl r hd
    rw [hinner]
    rw [priceScan_truthy inst a.requests (some r.SpotPrice)
      (by simp [jsTruthyPrice, hz])]
    exact ⟨by rw [hpr], by rw [← hpr] at *; exact hz⟩
  | none =>
    rw [hd] at hp
    cases ha : a.requests.find?
        (fun r => inst.SpotInstanceRequestId == some r.SpotInstanceRequestId
          && decide (r.SpotPrice ≠ 0)) with
    | some r =>
      rw [ha] at hp
      have hpr : r.SpotPrice = p := Option.some.inj hp
      have hcond := List.find?_some ha
      have hz : r.SpotPrice ≠ 0 :=
        of_decide_eq_true ((Bool.and_eq_true _ _).mp hcond).2
      have hinner : jsTruthyPrice (priceScan inst d.requests none) = false :=
        priceScan_find_none inst d.requests none rfl hd
      have houter : priceScan inst a.requests (priceScan inst d.requests none)
          = some r.SpotPrice :=
        priceScan_find_some inst a.requests _ hinner r ha
      rw [houter]
      exact ⟨by rw [hpr], by rw [← hpr] at *; exact hz⟩
    | none =>
      rw [ha] at hp
      cases hp

/-- C7 amended: for a departed instance whose state reason code is
Server.SpotInstanceTermination, instance_terminated is emitted, and when
some matching request in the dead or current state has a NONZERO bid price,
a spot_price_floor event carrying the first such price (dead state searched
before current state) is emitted; a matching request whose bid price parses
to zero (or an absent match) produces no floor event because the source
guards the emission with the truthiness test if (price). -/
theorem plotInstanceDeath_amended (d a : ApiState) (inst : Ec2Instance)
    (hreason : inst.StateReason.map StateReason.Code
      = some ("Server.SpotInstanceTermination")) :
    Event.instanceTerminated inst.InstanceId ∈ plotInstanceDeath d a inst ∧
    (∀ p : ℚ, firstMatchingNonzeroBid d a inst = some p →
      Event.spotPriceFloor p ("instance-spot-killed") ∈ plotInstanceDeath d a inst) := by
  have hif : (inst.StateReason.map StateReason.Code
      == some ("Server.SpotInstanceTermination")) = true := by
    rw [hreason]
    exact beq_self_eq_true _
  constructor
  · unfold plotInstanceDeath
    rw [if_pos hif]
    cases hP : foundFloorPrice d a inst with
    | none => exact List.mem_singleton.mpr rfl
    | some price =>
      show Event.instanceTerminated inst.InstanceId ∈
        (if price = 0 then [Event.instanceTerminated inst.InstanceId]
         else [Event.instanceTerminated inst.InstanceId]
           ++ [Event.spotPriceFloor price ("instance-spot-killed")])
      by_cases hz : price = 0
      · rw [if_pos hz]
        exact List.mem_singleton.mpr rfl
      · rw [if_neg hz]
        exact List.mem_append_left _ (List.mem_singleton.mpr rfl)
  · intro p hp
    obtain ⟨hfound, hnz⟩ := foundFloorPrice_of_firstMatching d a inst p hp
    unfold plotInstanceDeath
    rw [if_pos hif, hfound]
    show Event.spotPriceFloor p ("instance-spot-killed") ∈
      (if p = 0 then [Event.instanceTerminated inst.InstanceId]
       else [Event.instanceTerminated inst.InstanceId]
         ++ [Event.spotPriceFloor p ("instance-spot-killed")])
    rw [if_neg hnz]
    exact List.mem_append_right _ (List.mem_singleton.mpr rfl)

def c7Inst : Ec2Instance :=
  { InstanceId := "i-7", InstanceType := "m3.large",
    State := { Name := "terminated" },
    SpotInstanceRequestId := some ("sir-7"),
    StateReason := some { Code := "Server.SpotInstanceTermination", Message := "spot" },
    Region := "us-east-1", WorkerType := "w1" }

/-- A dead state whose only request matches the C7 instance but has a bid
price that parses to zero. -/
def c7Dead : ApiState :=
  { instances := [],
    requests := [mkRequest ("sir-7") ("w1") ("us-east-1") ("m3.large") ("active")
      ("instance-terminated-by-price") 0 0] }

/-- C7 counterexample: the dead state holds the matching request (id sir-7)
of the spot-killed instance, so the claim requires a spot_price_floor event
carrying its bid price; but that price parses to zero, the truthiness guard
if (price) skips it, and the code emits only instance_terminated. -/
theorem plotInstanceDeath_zero_bid :
    plotInstanceDeath c7Dead emptyApiState c7Inst
      = [Event.instanceTerminated ("i-7")] := by
  refine rfl

def c7InstW : Ec2Instance :=
  { InstanceId := "i-8", InstanceType := "m3.large",
    State := { Name := "terminated" },
    SpotInstanceRequestId := some ("sir-8"),
    StateReason := some { Code := "Server.SpotInstanceTermination", Message := "spot" },
    Region := "us-east-1", WorkerType := "w1" }

def c7DeadW : ApiState :=
  { instances := [],
    requests := [mkRequest ("sir-8") ("w1") ("us-east-1") ("m3.large") ("active")
      ("instance-terminated-by-price") 0 1] }

/-- Witness for the C7 amended theorem: with a matching dead request of
nonzero bid price 1, both events are emitted. -/
theorem plotInstanceDeath_amended_witness :
    Event.instanceTerminated ("i-8") ∈ plotInstanceDeath c7DeadW emptyApiState c7InstW ∧
    Event.spotPriceFloor 1 ("instance-spot-killed")
      ∈ plotInstanceDeath c7DeadW emptyApiState c7InstW :=
  ⟨(plotInstanceDeath_amended c7DeadW emptyApiState c7InstW (by decide)).1,
   (plotInstanceDeath_amended c7DeadW emptyApiState c7InstW (by decide)).2 1 (by decide)⟩

/- ---------------------------------------------------------------------
   C2: killCancel and killCapacityOfWorkerType.
--------------------------------------------------------------------- -/

/-- A cloud call issued by the kill paths. -/
inductive Ec2Call where
  | terminateInstances (region : String) (ids : List String) : Ec2Call
  | cancelSpotRequests (region : String) (ids : List String) : Ec2Call
deriving DecidableEq, Repr

/-- killCancel (aws-manager.js 1190-1213): one terminateInstances call for
the nonempty instance batch of a region and one cancelSpotInstanceRequests
call for the nonempty request batch. -/
def killCancel (region : String) (instances requests : List String) : List Ec2Call :=
  (if instances.length > 0 then [Ec2Call.terminateInstances region instances] else [])
    ++ (if requests.length > 0 then [Ec2Call.cancelSpotRequests region requests] else [])

/-- killCapacityOfWorkerType (aws-manager.js 1220-1293).  The continuation
test cont() (line 1239) is
  count <= capToKill && capacity - capToKill >= minCapacity
with the first comparison inverted relative to its stated purpose, and
capToKill starts at 0 and only changes inside a selection body.  Every
selection body, after bumping capToKill, executes toKill[region].push(id):
toKill[region] is the plain object with an instances array and a requests
array (line 1246) and has no push method, so the statement throws a
TypeError that propagates out; we model that with Except.error.  Because
capToKill cannot change without a throw, cont() is decided once, and when no
body ever runs every per-region batch stays empty, so the final loop issues
no killCancel calls at all. -/
def killCapacityOfWorkerType (s : ManagerState) (w : WorkerTypeDef)
    (count : Int) (states : List String) : Except String (List Ec2Call) :=
  let capacity : Int := capacityForType s w states
  let capToKill : Int := 0
  let cont : Bool :=
    decide (count ≤ capToKill) && decide (capacity - capToKill ≥ w.minCapacity)
  let spotCandidates : List SpotRequest :=
    if states.contains ("spotReq") then requestsOfType s w.workerType else []
  let internalCandidates : List TrackedSr :=
    if states.contains ("spotReq") then
      s.internalState.filter (fun sr => sr.request.WorkerType == w.workerType)
    else []
  let instanceCandidates : List Ec2Instance :=
    (instancesOfType s w.workerType).filter (fun i => states.contains i.State.Name)
  if cont && (!(spotCandidates.isEmpty) || !(internalCandidates.isEmpty)
      || !(instanceCandidates.isEmpty)) then
    Except.error ("TypeError: toKill[region].push is not a function")
  else
    Except.ok []

def c2Worker : WorkerTypeDef :=
  { workerType := "w2", minCapacity := 0,
    instanceTypes := [{ instanceType := "m3.large", capacity := 1 }] }

/-- A state with exactly one cancellable open spot request of w2. -/
def c2State : ManagerState :=
  mkState
    { instances := [],
      requests := [mkRequest ("sir-2") ("w2") ("us-east-1") ("m3.large") ("open")
        ("pending-evaluation") 0 1] }
    [] []

/-- C2 fails on the code: asked to kill one unit of capacity while one open
w2 request (current capacity 1, min capacity 0) is available, the function
issues no cancelSpotRequests and no terminateInstances call at all, because
cont() tests count <= capToKill, which is false from the start whenever
count is positive.  And whenever a selection body does run (count <= 0 with
capacity at or above minimum and any candidate present), it throws a
TypeError, because the ids are pushed onto toKill[region] itself instead of
its instances and requests arrays.  The claim requires selecting candidates
whose total capacity is at least count and batching them per region. -/
theorem killCapacityOfWorkerType_divergence :
    killCapacityOfWorkerType c2State c2Worker 1 [("spotReq")] = Except.ok [] ∧
    capacityForType c2State c2Worker [("spotReq")] = 1 ∧
    killCapacityOfWorkerType c2State c2Worker 0 [("spotReq")]
      = Except.error ("TypeError: toKill[region].push is not a function") := by
  refine ⟨rfl, rfl, rfl⟩

/- ---------------------------------------------------------------------
   C8: knownWorkerTypes, killByName and rougeKiller.
--------------------------------------------------------------------- -/

/-- The push-if-absent idiom of knownWorkerTypes (aws-manager.js 674-696). -/
def pushUnique (acc : List String) (x : String) : List String :=
  if acc.contains x then acc else acc ++ [x]

/-- One forEach of knownWorkerTypes, pushing each name not yet collected. -/
def addNames : List String → List String → List String
  | [], acc => acc
  | n :: rest, acc => addNames rest (pushUnique acc n)

/-- knownWorkerTypes (aws-manager.js 674-696): the worker-type names seen on
instances, then on requests, then on internal (in-flight) entries. -/
def knownWorkerTypes (s : ManagerState) : List String :=
  addNames (s.internalState.map (fun sr => sr.request.WorkerType))
    (addNames (s.apiState.requests.map SpotRequest.WorkerType)
      (addNames (s.apiState.instances.map Ec2Instance.WorkerType) []))

theorem mem_pushUnique_of_mem (acc : List String) (x y : String) (hy : y ∈ acc) :
    y ∈ pushUnique acc x := by
  unfold pushUnique
  split
  · exact hy
  · exact List.mem_append_left _ hy

theorem mem_pushUnique_self (acc : List String) (x : String) :
    x ∈ pushUnique acc x := by
  unfold pushUnique
  split
  · rename_i hc
    exact contains_iff_mem.mp hc
  · exact List.mem_append_right _ (List.mem_singleton.mpr rfl)

theorem mem_addNames_of_mem_acc (l acc : List String) (y : String) (hy : y ∈ acc) :
    y ∈ addNames l acc := by
  induction l generalizing acc with
  | nil => exact hy
  | cons n rest ih => exact ih _ (mem_pushUnique_of_mem acc n y hy)

theorem mem_addNames_of_mem (l acc : List String) (y : String) (hy : y ∈ l) :
    y ∈ addNames l acc := by
  induction l generalizing acc with
  | nil => cases hy
  | cons n rest ih =>
    rcases List.mem_cons.mp hy with hyn | hy2
    · exact mem_addNames_of_mem_acc rest _ y (hyn ▸ mem_pushUnique_self acc n)
    · exact ih _ hy2

theorem workerType_mem_known_of_instance (s : ManagerState) (i : Ec2Instance)
    (hi : i ∈ s.apiState.instances) : i.WorkerType ∈ knownWorkerTypes s :=
  mem_addNames_of_mem_acc _ _ _
    (mem_addNames_of_mem_acc _ _ _
      (mem_addNames_of_mem _ [] _ (List.mem_map_of_mem Ec2Instance.WorkerType hi)))

theorem workerType_mem_known_of_request (s : ManagerState) (r : SpotRequest)
    (hr : r ∈ s.apiState.requests) : r.WorkerType ∈ knownWorkerTypes s :=
  mem_addNames_of_mem_acc _ _ _
    (mem_addNames_of_mem _ _ _ (List.mem_map_of_mem SpotRequest.WorkerType hr))

theorem workerType_mem_known_of_internal (s : ManagerState) (sr : TrackedSr)
    (hsr : sr ∈ s.internalState) : sr.request.WorkerType ∈ knownWorkerTypes s :=
  mem_addNames_of_mem _ _ _
    (List.mem_map_of_mem (fun sr2 => sr2.request.WorkerType) hsr)

/-- Per-region kill batches. -/
structure RegionKills where
  instances : List String
  requests : List String
deriving DecidableEq, Repr

/-- The default states list of killByName (aws-manager.js 1144-1146), used
when the caller, such as rougeKiller, passes none. -/
def stdKillStates : List String := ["running", "pending", "spotReq"]

/-- killByName (aws-manager.js 1141-1185): per region, the instance ids of
the named worker type whose state is in states, and the request ids of the
named worker type from the API state followed by those from the internal
state.  The source iterates the items pushing each into
perRegionKills[item.Region]; provided every item region is among the
configured regions (an item with a region outside them would make the
source throw on the undefined key, and the classifier only produces
configured regions), that is exactly this per-region filter, in item order. -/
def killByName (regions : List String) (s : ManagerState) (name : String)
    (states : List String) : List (String × RegionKills) :=
  regions.map (fun region =>
    (region,
     { instances :=
         (s.apiState.instances.filter (fun i =>
           i.WorkerType == name && states.contains i.State.Name
             && i.Region == region)).map Ec2Instance.InstanceId,
       requests :=
         ((s.apiState.requests.filter (fun r =>
           r.WorkerType == name && states.contains ("spotReq")
             && r.Region == region)).map SpotRequest.SpotInstanceRequestId)
           ++ ((s.internalState.filter (fun sr =>
             sr.request.WorkerType == name && states.contains ("spotReq")
               && sr.request.Region == region)).map
                 (fun sr => sr.request.SpotInstanceRequestId)) }))

/-- The cloud calls issued by killByName: one killCancel batch per region. -/
def killByNameCalls (regions : List String) (s : ManagerState) (name : String)
    (states : List String) : List Ec2Call :=
  ((killByName regions s name states).map
    (fun rk => killCancel rk.1 rk.2.instances rk.2.requests)).flatten

/-- The result of one rougeKiller pass: which key pairs are deleted and
which kill batches are issued. -/
structure RougeResult where
  deletedKeyPairs : List String
  kills : List (String × List (String × RegionKills))
deriving DecidableEq, Repr

/-- rougeKiller (aws-manager.js 1121-1136): for every worker type observed
in state that is not in the configured list, delete its key pair and kill it
by name in all regions. -/
def rougeKiller (regions : List String) (s : ManagerState)
    (configuredWorkers : List String) : RougeResult :=
  { deletedKeyPairs :=
      (knownWorkerTypes s).filter (fun name => !(configuredWorkers.contains name)),
    kills :=
      ((knownWorkerTypes s).filter (fun name => !(configuredWorkers.contains name))).map
        (fun name => (name, killByName regions s name stdKillStates)) }

theorem killCancel_mem_terminate (region : String) (li lr : List String)
    (h : li ≠ []) :
    Ec2Call.terminateInstances region li ∈ killCancel region li lr := by
  unfold killCancel
  rw [if_pos (List.length_pos.mpr h)]
  exact List.mem_append_left _ (List.mem_singleton.mpr rfl)

theorem killCancel_mem_cancel (region : String) (li lr : List String)
    (h : lr ≠ []) :
    Ec2Call.cancelSpotRequests region lr ∈ killCancel region li lr := by
  unfold killCancel
  refine List.mem_append_right _ ?_
  rw [if_pos (List.length_pos.mpr h)]
  exact List.mem_singleton.mpr rfl

theorem rogue_mem_deleted (s : ManagerState) (regions configuredWorkers : List String)
    (wt : String) (hknown : wt ∈ knownWorkerTypes s)
    (hnc : wt ∉ configuredWorkers) :
    wt ∈ (rougeKiller regions s configuredWorkers).deletedKeyPairs := by
  have hcf : configuredWorkers.contains wt = false := by
    cases hc : configuredWorkers.contains wt with
    | true => exact absurd (contains_iff_mem.mp hc) hnc
    | false => rfl
  exact List.mem_filter.mpr ⟨hknown, by rw [hcf]; rfl⟩

theorem rogue_mem_kills (s : ManagerState) (regions configuredWorkers : List String)
    (wt : String) (hknown : wt ∈ knownWorkerTypes s)
    (hnc : wt ∉ configuredWorkers) :
    (wt, killByName regions s wt stdKillStates)
      ∈ (rougeKiller regions s configuredWorkers).kills :=
  List.mem_map_of_mem (fun name => (name, killByName regions s name stdKillStates))
    (rogue_mem_deleted s regions configuredWorkers wt hknown hnc)

/-- C8: every worker type observed in state (on an instance, an open
request, or an in-flight entry) and absent from the configured list has its
key pair deleted, and each of its instances and requests lands in the kill
batch of its own region, issued as terminateInstances and cancelSpotRequests
calls.  Hypotheses reflect the snapshot invariants: the live classifier only
admits running and pending instances and only configured regions.  With an
empty configured list the not-configured hypothesis holds for every observed
worker type, so every one of them is killed. -/
theorem rougeKiller_kills_unconfigured (regions : List String) (s : ManagerState)
    (configuredWorkers : List String)
    (hstate : ∀ i ∈ s.apiState.instances,
      i.State.Name = "running" ∨ i.State.Name = "pending") :
    (∀ i ∈ s.apiState.instances, i.Region ∈ regions →
      i.WorkerType ∉ configuredWorkers →
      i.WorkerType ∈ (rougeKiller regions s configuredWorkers).deletedKeyPairs ∧
      (i.WorkerType, killByName regions s i.WorkerType stdKillStates)
        ∈ (rougeKiller regions s configuredWorkers).kills ∧
      ∃ rk : RegionKills,
        (i.Region, rk) ∈ killByName regions s i.WorkerType stdKillStates ∧
        i.InstanceId ∈ rk.instances ∧
        Ec2Call.terminateInstances i.Region rk.instances
          ∈ killByNameCalls regions s i.WorkerType stdKillStates) ∧
    (∀ r ∈ s.apiState.requests, r.Region ∈ regions →
      r.WorkerType ∉ configuredWorkers →
      r.WorkerType ∈ (rougeKiller regions s configuredWorkers).deletedKeyPairs ∧
      (r.WorkerType, killByName regions s r.WorkerType stdKillStates)
        ∈ (rougeKiller regions s configuredWorkers).kills ∧
      ∃ rk : RegionKills,
        (r.Region, rk) ∈ killByName regions s r.WorkerType stdKillStates ∧
        r.SpotInstanceRequestId ∈ rk.requests ∧
        Ec2Call.cancelSpotRequests r.Region rk.requests
          ∈ killByNameCalls regions s r.WorkerType stdKillStates) ∧
    (∀ sr ∈ s.internalState, sr.request.Region ∈ regions →
      sr.request.WorkerType ∉ configuredWorkers →
      sr.request.WorkerType ∈ (rougeKiller regions s configuredWorkers).deletedKeyPairs ∧
      (sr.request.WorkerType, killByName regions s sr.request.WorkerType stdKillStates)
        ∈ (rougeKiller regions s configuredWorkers).kills ∧
      ∃ rk : RegionKills,
        (sr.request.Region, rk) ∈ killByName regions s sr.request.WorkerType stdKillStates ∧
        sr.request.SpotInstanceRequestId ∈ rk.requests ∧
        Ec2Call.cancelSpotRequests sr.request.Region rk.requests
          ∈ killByNameCalls regions s sr.request.WorkerType stdKillStates) := by
  refine ⟨?_, ?_, ?_⟩
  · intro i hi hreg hnc
    refine ⟨rogue_mem_deleted s regions configuredWorkers i.WorkerType
        (workerType_mem_known_of_instance s i hi) hnc,
      rogue_mem_kills s regions configuredWorkers i.WorkerType
        (workerType_mem_known_of_instance s i hi) hnc, ?_⟩
    have hcontain : stdKillStates.contains i.State.Name = true := by
      rcases hstate i hi with h | h <;> rw [h] <;> decide
    have hpred : (i.WorkerType == i.WorkerType
        && stdKillStates.contains i.State.Name && i.Region == i.Region) = true := by
      rw [hcontain]
      simp
    have hmemf : i ∈ s.apiState.instances.filter (fun i2 =>
        i2.WorkerType == i.WorkerType && stdKillStates.contains i2.State.Name
          && i2.Region == i.Region) :=
      List.mem_filter.mpr ⟨hi, hpred⟩
    have hmemid : i.InstanceId ∈ (s.apiState.instances.filter (fun i2 =>
        i2.WorkerType == i.WorkerType && stdKillStates.contains i2.State.Name
          && i2.Region == i.Region)).map Ec2Instance.InstanceId :=
      List.mem_map_of_mem Ec2Instance.InstanceId hmemf
    refine ⟨_, List.mem_map_of_mem _ hreg, hmemid, ?_⟩
    refine List.mem_flatten.mpr ⟨_, List.mem_map_of_mem _ (List.mem_map_of_mem _ hreg), ?_⟩
    exact killCancel_mem_terminate i.Region _ _ (List.ne_nil_of_mem hmemid)
  · intro r hr hreg hnc
    refine ⟨rogue_mem_deleted s regions configuredWorkers r.WorkerType
        (workerType_mem_known_of_request s r hr) hnc,
      rogue_mem_kills s regions configuredWorkers r.WorkerType
        (workerType_mem_known_of_request s r hr) hnc, ?_⟩
    have hpred : (r.WorkerType == r.WorkerType
        && stdKillStates.contains ("spotReq") && r.Region == r.Region) = true := by
      simp [stdKillStates]
    have hmemf : r ∈ s.apiState.requests.filter (fun r2 =>
        r2.WorkerType == r.WorkerType && stdKillStates.contains ("spotReq")
          && r2.Region == r.Region) :=
      List.mem_filter.mpr ⟨hr, hpred⟩
    have hmemid : r.SpotInstanceRequestId ∈
        ((s.apiState.requests.filter (fun r2 =>
          r2.WorkerType == r.WorkerType && stdKillStates.contains ("spotReq")
            && r2.Region == r.Region)).map SpotRequest.SpotInstanceRequestId)
          ++ ((s.internalState.filter (fun sr2 =>
            sr2.request.WorkerType == r.WorkerType && stdKillStates.contains ("spotReq")
              && sr2.request.Region == r.Region)).map
                (fun sr2 => sr2.request.SpotInstanceRequestId)) :=
      List.mem_append_left _ (List.mem_map_of_mem SpotRequest.SpotInstanceRequestId hmemf)
    refine ⟨_, List.mem_map_of_mem _ hreg, hmemid, ?_⟩
    refine List.mem_flatten.mpr ⟨_, List.mem_map_of_mem _ (List.mem_map_of_mem _ hreg), ?_⟩
    exact killCancel_mem_cancel r.Region _ _ (List.ne_nil_of_mem hmemid)
  · intro sr hsr hreg hnc
    refine ⟨rogue_mem_deleted s regions configuredWorkers sr.request.WorkerType
        (workerType_mem_known_of_internal s sr hsr) hnc,
      rogue_mem_kills s regions configuredWorkers sr.request.WorkerType
        (workerType_mem_known_of_internal s sr hsr) hnc, ?_⟩
    have hpred : (sr.request.WorkerType == sr.request.WorkerType
        && stdKillStates.contains ("spotReq")
        && sr.request.Region == sr.request.Region) = true := by
      simp [stdKillStates]
    have hmemf : sr ∈ s.internalState.filter (fun sr2 =>
        sr2.request.WorkerType == sr.request.WorkerType
          && stdKillStates.contains ("spotReq")
          && sr2.request.Region == sr.request.Region) :=
      List.mem_filter.mpr ⟨hsr, hpred⟩
    have hmemid : sr.request.SpotInstanceRequestId ∈
        ((s.apiState.requests.filter (fun r2 =>
          r2.WorkerType == sr.request.WorkerType && stdKillStates.contains ("spotReq")
            && r2.Region == sr.request.Region)).map SpotRequest.SpotInstanceRequestId)
          ++ ((s.internalState.filter (fun sr2 =>
            sr2.request.WorkerType == sr.request.WorkerType
              && stdKillStates.contains ("spotReq")
              && sr2.request.Region == sr.request.Region)).map
                (fun sr2 => sr2.request.SpotInstanceRequestId)) :=
      List.mem_append_right _
        (List.mem_map_of_mem (fun sr2 => sr2.request.SpotInstanceRequestId) hmemf)
    refine ⟨_, List.mem_map_of_mem _ hreg, hmemid, ?_⟩
    refine List.mem_flatten.mpr ⟨_, List.mem_map_of_mem _ (List.mem_map_of_mem _ hreg), ?_⟩
    exact killCancel_mem_cancel sr.request.Region _ _ (List.ne_nil_of_mem hmemid)

def c8Inst : Ec2Instance :=
  { InstanceId := "i-legacy", InstanceType := "m3.large",
    State := { Name := "running" }, SpotInstanceRequestId := none,
    StateReason := none, Region := "us-east-1", WorkerType := "legacy" }

def c8Req : SpotRequest :=
  mkRequest ("sir-legacy") ("legacy") ("us-east-1") ("m3.large") ("open")
    ("pending-evaluation") 0 1

def c8Tracked : TrackedSr :=
  { workerType := "legacy",
    request := mkRequest ("sir-legacy2") ("legacy") ("us-east-1") ("m3.large")
      ("open") ("pending-evaluation") 0 1,
    bid := mkBid ("us-east-1") ("m3.large") 1,
    submitted := 0 }

/-- A state where worker type legacy owns one running instance, one open
request and one in-flight entry, all in us-east-1. -/
def c8State : ManagerState :=
  mkState { instances := [c8Inst], requests := [c8Req] } [c8Tracked] []

/-- Witness for the C8 theorem: with configured set {modern}, the observed
worker type legacy loses its key pair and all three of its resources are
batched for killing in their region. -/
theorem rougeKiller_kills_unconfigured_witness :
    (c8Inst.WorkerType
        ∈ (rougeKiller [("us-east-1")] c8State [("modern")]).deletedKeyPairs ∧
      (c8Inst.WorkerType, killByName [("us-east-1")] c8State c8Inst.WorkerType stdKillStates)
        ∈ (rougeKiller [("us-east-1")] c8State [("modern")]).kills ∧
      ∃ rk : RegionKills,
        (c8Inst.Region, rk) ∈ killByName [("us-east-1")] c8State c8Inst.WorkerType stdKillStates ∧
        c8Inst.InstanceId ∈ rk.instances ∧
        Ec2Call.terminateInstances c8Inst.Region rk.instances
          ∈ killByNameCalls [("us-east-1")] c8State c8Inst.WorkerType stdKillStates) ∧
    (c8Req.WorkerType
        ∈ (rougeKiller [("us-east-1")] c8State [("modern")]).deletedKeyPairs ∧
      (c8Req.WorkerType, killByName [("us-east-1")] c8State c8Req.WorkerType stdKillStates)
        ∈ (rougeKiller [("us-east-1")] c8State [("modern")]).kills ∧
      ∃ rk : RegionKills,
        (c8Req.Region, rk) ∈ killByName [("us-east-1")] c8State c8Req.WorkerType stdKillStates ∧
        c8Req.SpotInstanceRequestId ∈ rk.requests ∧
        Ec2Call.cancelSpotRequests c8Req.Region rk.requests
          ∈ killByNameCalls [("us-east-1")] c8State c8Req.WorkerType stdKillStates) ∧
    (c8Tracked.request.WorkerType
        ∈ (rougeKiller [("us-east-1")] c8State [("modern")]).deletedKeyPairs ∧
      (c8Tracked.request.WorkerType,
          killByName [("us-east-1")] c8State c8Tracked.request.WorkerType stdKillStates)
        ∈ (rougeKiller [("us-east-1")] c8State [("modern")]).kills ∧
      ∃ rk : RegionKills,
        (c8Tracked.request.Region, rk)
          ∈ killByName [("us-east-1")] c8State c8Tracked.request.WorkerType stdKillStates ∧
        c8Tracked.request.SpotInstanceRequestId ∈ rk.requests ∧
        Ec2Call.cancelSpotRequests c8Tracked.request.Region rk.requests
          ∈ killByNameCalls [("us-east-1")] c8State c8Tracked.request.WorkerType stdKillStates) :=
  ⟨(rougeKiller_kills_unconfigured [("us-east-1")] c8State [("modern")]
      (by decide)).1 c8Inst (by decide) (by decide) (by decide),
   (rougeKiller_kills_unconfigured [("us-east-1")] c8State [("modern")]
      (by decide)).2.1 c8Req (by decide) (by decide) (by decide),
   (rougeKiller_kills_unconfigured [("us-east-1")] c8State [("modern")]
      (by decide)).2.2 c8Tracked (by decide) (by decide) (by decide)⟩

/-- Witness for the C10 theorem: deleting wa keeps wb cached, drops wa, and
lets createKeyPair for wa perform the real check again. -/
theorem deleteKeyPair_cache_witness :
    ("wa") ∉ (deleteKeyPair c10State ("wa")).knownKeyPairs ∧
    ("wb") ∈ (deleteKeyPair c10State ("wa")).knownKeyPairs ∧
    (createKeyPair (deleteKeyPair c10State ("wa")) ("wa")).1 = true :=
  ⟨(deleteKeyPair_cache c10State ("wa")).1,
   (deleteKeyPair_cache c10State ("wa")).2.1 ("wb") (by decide) (by decide),
   (deleteKeyPair_cache c10State ("wa")).2.2⟩

end Aws
